import Mathlib

/-!
Verification of the WebMCP inspector's schema engine, call-signature dedup
ledger and AI agent loop (src/sidebar.js), via a shallow embedding of the
JavaScript value model and the relevant functions.
-/

set_option maxHeartbeats 1000000

namespace WebMCP

/-- JavaScript runtime values as they flow through the sidebar code.
Numbers are modelled as exact rationals (`Rat`): every IEEE double the code
can hold is a rational, and the code only performs exact-result arithmetic
(`+0.1`, `Math.round/ceil/floor`, comparisons) on them.  The non-finite
doubles (`NaN`, `±Infinity`) are not representable as `vNum`; the only
operation of the modelled code that can produce them, `Number(...)` coercion,
is modelled as returning `Option Rat` with `none` for every non-finite
result (the code only ever asks `Number.isFinite` of them). -/
inductive JSValue where
  | vUndef : JSValue
  | vNull : JSValue
  | vBool (b : Bool) : JSValue
  | vNum (q : Rat) : JSValue
  | vStr (s : String) : JSValue
  | vArr (items : List JSValue) : JSValue
  | vObj (fields : List (String × JSValue)) : JSValue

namespace JSValue

/-- JavaScript truthiness (`!!v`) for the modelled values. -/
def truthy : JSValue → Bool
  | vUndef => false
  | vNull => false
  | vBool b => b
  | vNum q => q != 0
  | vStr s => s != ""
  | vArr _ => true
  | vObj _ => true

/-- `typeof v === 'object' && v !== null && !Array.isArray(v)`. -/
def isPlainObj : JSValue → Bool
  | vObj _ => true
  | _ => false

def isArr : JSValue → Bool
  | vArr _ => true
  | _ => false

def isNum : JSValue → Bool
  | vNum _ => true
  | _ => false

def isBool : JSValue → Bool
  | vBool _ => true
  | _ => false

def isUndef : JSValue → Bool
  | vUndef => true
  | _ => false

/-- Field list of an object value; `[]` for everything else. -/
def fieldsOf : JSValue → List (String × JSValue)
  | vObj fields => fields
  | _ => []

/-- Element list of an array value; `[]` for everything else. -/
def elemsOf : JSValue → List JSValue
  | vArr items => items
  | _ => []

end JSValue

/-- First-occurrence lookup in an object's field list (`obj[key]`),
yielding `vUndef` when the key is absent, as in JavaScript. -/
def objGet (fields : List (String × JSValue)) (k : String) : JSValue :=
  match fields with
  | [] => .vUndef
  | (k', v) :: rest => if k' = k then v else objGet rest k

/-- `Object.prototype.hasOwnProperty.call(obj, key)`. -/
def objHas (fields : List (String × JSValue)) (k : String) : Bool :=
  match fields with
  | [] => false
  | (k', _) :: rest => k' = k || objHas rest k

/-- JavaScript property assignment `obj[key] = v`: overwrite in place when
the key exists, else append. -/
def objSet (fields : List (String × JSValue)) (k : String) (v : JSValue) :
    List (String × JSValue) :=
  match fields with
  | [] => [(k, v)]
  | (k', v') :: rest =>
    if k' = k then (k', v) :: rest else (k', v') :: objSet rest k v

/-- Assemble an object from a member list by repeated assignment, as
JavaScript object construction does: a repeated key keeps its first
position but its last value. -/
def objFromEntries (entries : List (String × JSValue)) : List (String × JSValue) :=
  entries.foldl (fun acc kv => objSet acc kv.1 kv.2) []

/-- Do the keys of a field list occur once each?  True of every object a
JavaScript runtime can produce; `vObj` values violating it are model
artifacts. -/
def nodupKeys : List (String × JSValue) → Bool
  | [] => true
  | (k, _) :: rest => !(rest.any (fun kv => kv.1 == k)) && nodupKeys rest

/-! ### Kernel-computable rational arithmetic

The `Rat` operations of the ambient library are `@[irreducible]`, which
blocks concrete evaluation inside the kernel.  The model therefore uses its
own arithmetic on `Rat`, written with `mkRat` and `num`/`den` projections
(which do reduce), together with bridge lemmas identifying it with the
library operations for symbolic reasoning. -/

def ratOfInt (n : Int) : Rat := mkRat n 1

def ratAdd (a b : Rat) : Rat := mkRat (a.num * b.den + b.num * a.den) (a.den * b.den)

def ratMul (a b : Rat) : Rat := mkRat (a.num * b.num) (a.den * b.den)

/-- `a * 10^e`. -/
def ratScaleUp (a : Rat) (e : Nat) : Rat := mkRat (a.num * 10 ^ e) a.den

/-- `a / 10^e`. -/
def ratScaleDown (a : Rat) (e : Nat) : Rat := mkRat a.num (a.den * 10 ^ e)

def ratLt (a b : Rat) : Bool := a.num * b.den < b.num * a.den

def ratLe (a b : Rat) : Bool := a.num * b.den ≤ b.num * a.den

theorem ratMul_eq (a b : Rat) : ratMul a b = a * b := by
  rw [ratMul, Rat.mul_def, Rat.normalize_eq_mkRat]

/-- `Math.round` (round half towards positive infinity). -/
def jsRound (q : Rat) : Rat := ratOfInt (ratAdd q (mkRat 1 2)).floor

/-- `Math.ceil`. -/
def jsCeil (q : Rat) : Rat := ratOfInt q.ceil

/-- `Math.floor`. -/
def jsFloor (q : Rat) : Rat := ratOfInt q.floor

/-- Multiplicity of a prime-like factor `p` in `n`, with the quotient left
over; fuelled by `n` itself (division strictly shrinks the argument). -/
def factorMult (p : Nat) : Nat → Nat → Nat × Nat
  | 0, n => (0, n)
  | fuel + 1, n =>
    if 1 < p && n % p == 0 && n != 0 then
      let r := factorMult p fuel (n / p)
      (r.1 + 1, r.2)
    else (0, n)

/-- If `den = 2^a * 5^b`, returns `some (max a b)` (the number of decimal
digits needed for an exact expansion), else `none`. -/
def tenSmooth (den : Nat) : Option Nat :=
  let r2 := factorMult 2 den den
  let r5 := factorMult 5 r2.2 r2.2
  if r5.2 = 1 then some (max r2.1 r5.1) else none

def replicateChar (n : Nat) (c : Char) : String := String.mk (List.replicate n c)

def padZerosLeft (k : Nat) (s : String) : String :=
  if s.length < k then replicateChar (k - s.length) '0' ++ s else s

/-- Model of JavaScript `String(number)`.  Exact for every value the code
manipulates: integers render as plain decimal digits and terminating
decimals (all IEEE doubles are such) render with a fractional part and no
trailing zeros.  Rationals outside the decimal-terminating class cannot be
held by a JavaScript number at all; they are rendered as `num/den` purely
so that the function stays total and injective on the model. -/
def ratToString (q : Rat) : String :=
  if q.den = 1 then toString q.num
  else
    match tenSmooth q.den with
    | some k =>
      let pow := 10 ^ k
      let scaled := q.num.natAbs * (pow / q.den)
      let ip := scaled / pow
      let fp := scaled % pow
      (if q.num < 0 then "-" else "") ++ toString ip ++ "." ++ padZerosLeft k (toString fp)
    | none =>
      (if q.num < 0 then "-" else "") ++ toString q.num.natAbs ++ "/" ++ toString q.den

def hexDigitChar (n : Nat) : Char :=
  if n < 10 then Char.ofNat (48 + n) else Char.ofNat (97 + (n - 10))

def hex4 (n : Nat) : String :=
  String.mk [hexDigitChar (n / 4096 % 16), hexDigitChar (n / 256 % 16),
             hexDigitChar (n / 16 % 16), hexDigitChar (n % 16)]

/-- One character of JSON string escaping, per `JSON.stringify`. -/
def escChar (c : Char) : String :=
  if c = '"' then "\\\""
  else if c = '\\' then "\\\\"
  else if c = '\n' then "\\n"
  else if c = '\r' then "\\r"
  else if c = '\t' then "\\t"
  else if c = '\x08' then "\\b"
  else if c = '\x0c' then "\\f"
  else if c.toNat < 32 then "\\u" ++ hex4 c.toNat
  else String.mk [c]

/-- `JSON.stringify` of a string: quoted with escapes. -/
def quoteJson (s : String) : String :=
  "\"" ++ String.join (s.toList.map escChar) ++ "\""

def digitsToNat (ds : List Char) : Nat :=
  ds.foldl (fun acc c => acc * 10 + (c.toNat - 48)) 0

/-- Parse the exponent suffix of a JavaScript numeric string, scaling a
mantissa; the whole remainder must be consumed. -/
def parseExpSuffix (m : Rat) : List Char → Option Rat
  | [] => some m
  | c :: rest =>
    if c = 'e' || c = 'E' then
      let core : List Char → Option Rat := fun ds =>
        let dig := ds.takeWhile Char.isDigit
        let rest2 := ds.dropWhile Char.isDigit
        if dig.isEmpty || !rest2.isEmpty then none
        else some (ratScaleUp m (digitsToNat dig))
      let coreNeg : List Char → Option Rat := fun ds =>
        let dig := ds.takeWhile Char.isDigit
        let rest2 := ds.dropWhile Char.isDigit
        if dig.isEmpty || !rest2.isEmpty then none
        else some (ratScaleDown m (digitsToNat dig))
      match rest with
      | '+' :: rest2 => core rest2
      | '-' :: rest2 => coreNeg rest2
      | _ => core rest
    else none

/-- Parse an unsigned JavaScript decimal literal (`digits`, `digits.`,
`digits.digits`, `.digits`, exponent suffixes). -/
def strToNumberCore (cs : List Char) : Option Rat :=
  let ip := cs.takeWhile Char.isDigit
  let r1 := cs.dropWhile Char.isDigit
  match r1 with
  | '.' :: r2 =>
    let fp := r2.takeWhile Char.isDigit
    let r3 := r2.dropWhile Char.isDigit
    if ip.isEmpty && fp.isEmpty then none
    else
      parseExpSuffix
        (ratAdd (ratOfInt (digitsToNat ip)) (mkRat (digitsToNat fp) (10 ^ fp.length))) r3
  | _ =>
    if ip.isEmpty then none else parseExpSuffix (ratOfInt (digitsToNat ip)) r1

/-- `s.trim()` (ASCII whitespace). -/
def jsTrim (s : String) : String :=
  String.mk ((s.toList.dropWhile Char.isWhitespace).reverse.dropWhile Char.isWhitespace
    |>.reverse)

/-- Model of `Number(string)`.  `none` stands for any non-finite result
(`NaN`, `±Infinity`): the modelled code only ever asks `Number.isFinite`
of the coercion, so the distinctions among non-finite results are never
observable.  (Hexadecimal literals, which no modelled call site ever
receives, are conservatively mapped to `none`.) -/
def strToNumber (s : String) : Option Rat :=
  let cs := (jsTrim s).toList
  match cs with
  | [] => some 0
  | '+' :: rest => strToNumberCore rest
  | '-' :: rest => (strToNumberCore rest).map Neg.neg
  | _ => strToNumberCore cs

/-- Model of JavaScript `String(value)` (fuelled: arrays stringify their
elements recursively, `null`/`undefined` elements becoming empty). -/
def jsToStringF : Nat → JSValue → String
  | _, .vUndef => "undefined"
  | _, .vNull => "null"
  | _, .vBool b => cond b "true" "false"
  | _, .vNum q => ratToString q
  | _, .vStr s => s
  | _, .vObj _ => "[object Object]"
  | 0, .vArr _ => ""
  | fuel + 1, .vArr items =>
    String.intercalate ","
      (items.map (fun v =>
        match v with
        | .vUndef => ""
        | .vNull => ""
        | w => jsToStringF fuel w))

/-- Model of `Number(value)` coercion (`none` = non-finite, see
`strToNumber`). -/
def toNumberF (fuel : Nat) : JSValue → Option Rat
  | .vNum q => some q
  | .vNull => some 0
  | .vUndef => none
  | .vBool b => some (cond b 1 0)
  | .vStr s => strToNumber s
  | .vObj _ => none
  | .vArr items => strToNumber (jsToStringF fuel (.vArr items))

/-- Model of the strict/SameValueZero equality the code applies through
`Array.prototype.includes` and `=== schema.const`.  Exact for primitives;
for objects and arrays JavaScript compares references, which a pure value
model cannot express — the model compares structurally instead (the code
only reaches this comparison on `enum`/`const` checks). -/
def jsEqF : Nat → JSValue → JSValue → Bool
  | _, .vUndef, .vUndef => true
  | _, .vNull, .vNull => true
  | _, .vBool a, .vBool b => a == b
  | _, .vNum a, .vNum b => a == b
  | _, .vStr a, .vStr b => a == b
  | 0, _, _ => false
  | fuel + 1, .vArr a, .vArr b =>
    a.length == b.length &&
      (List.zip a b).all (fun p => jsEqF fuel p.1 p.2)
  | fuel + 1, .vObj a, .vObj b =>
    a.length == b.length &&
      (List.zip a b).all (fun p => p.1.1 == p.2.1 && jsEqF fuel p.1.2 p.2.2)
  | _, _, _ => false

/-- `s.padEnd(target, c)`. -/
def jsPadEnd (s : String) (target : Nat) (c : Char) : String :=
  if s.length < target then s ++ replicateChar (target - s.length) c else s

/-- `s.slice(0, n)` for `n ≥ 0`. -/
def jsSliceTo (s : String) (n : Nat) : String := String.mk (s.toList.take n)

/-- Does `ns` occur as a prefix of `cs`? -/
def prefixAt : List Char → List Char → Bool
  | _, [] => true
  | [], _ :: _ => false
  | c :: cs, n :: ns => c = n && prefixAt cs ns

def hasSub (ns : List Char) : List Char → Bool
  | [] => prefixAt [] ns
  | c :: cs => prefixAt (c :: cs) ns || hasSub ns cs

/-- `hay.includes(needle)` for strings. -/
def strContains (hay needle : String) : Bool := hasSub needle.toList hay.toList

/-! ### JSON parsing (`JSON.parse`) -/

def skipWs (cs : List Char) : List Char :=
  cs.dropWhile (fun c => c = ' ' || c = '\t' || c = '\n' || c = '\r')

def hexVal (c : Char) : Option Nat :=
  if 48 ≤ c.toNat && c.toNat ≤ 57 then some (c.toNat - 48)
  else if 97 ≤ c.toNat && c.toNat ≤ 102 then some (c.toNat - 87)
  else if 65 ≤ c.toNat && c.toNat ≤ 70 then some (c.toNat - 55)
  else none

/-- Decode a single-character JSON escape (everything but `\u`). -/
def escDecode (e : Char) : Option Char :=
  if e = '"' then some '"'
  else if e = '\\' then some '\\'
  else if e = '/' then some '/'
  else if e = 'b' then some '\x08'
  else if e = 'f' then some '\x0c'
  else if e = 'n' then some '\n'
  else if e = 'r' then some '\r'
  else if e = 't' then some '\t'
  else none

/-- Parse the body of a JSON string literal (after the opening quote),
returning the decoded characters and the remainder after the closing
quote. -/
def pjStrAux : List Char → Option (List Char × List Char)
  | [] => none
  | '"' :: rest => some ([], rest)
  | ['\\'] => none
  | '\\' :: e :: rest2 =>
    if e = 'u' then
      match rest2 with
      | h1 :: h2 :: h3 :: h4 :: rest3 =>
        match hexVal h1, hexVal h2, hexVal h3, hexVal h4 with
        | some a, some b, some c, some d =>
          (pjStrAux rest3).map (fun p => (Char.ofNat (a * 4096 + b * 256 + c * 16 + d) :: p.1, p.2))
        | _, _, _, _ => none
      | _ => none
    else
      match escDecode e with
      | some c => (pjStrAux rest2).map (fun p => (c :: p.1, p.2))
      | none => none
  | c :: rest => (pjStrAux rest).map (fun p => (c :: p.1, p.2))

/-- Parse an optional JSON exponent suffix, scaling the mantissa. -/
def pjExp (m : Rat) (cs : List Char) : Option (Rat × List Char) :=
  match cs with
  | 'e' :: rest | 'E' :: rest =>
    let signedRest : Bool × List Char :=
      match rest with
      | '+' :: r => (false, r)
      | '-' :: r => (true, r)
      | r => (false, r)
    let ds := signedRest.2.takeWhile Char.isDigit
    let r3 := signedRest.2.dropWhile Char.isDigit
    if ds.isEmpty then none
    else
      some ((if signedRest.1 then ratScaleDown m (digitsToNat ds)
             else ratScaleUp m (digitsToNat ds)), r3)
  | _ => some (m, cs)

/-- Parse an unsigned JSON number (integer part without leading zeros,
optional fraction, optional exponent). -/
def pjNumCore (cs : List Char) : Option (Rat × List Char) :=
  let ip := cs.takeWhile Char.isDigit
  let r1 := cs.dropWhile Char.isDigit
  if ip.isEmpty then none
  else if ip.length > 1 && ip.headD '0' = '0' then none
  else
    match r1 with
    | '.' :: r2 =>
      let fp := r2.takeWhile Char.isDigit
      let r3 := r2.dropWhile Char.isDigit
      if fp.isEmpty then none
      else pjExp (ratAdd (ratOfInt (digitsToNat ip)) (mkRat (digitsToNat fp) (10 ^ fp.length))) r3
    | _ => pjExp (ratOfInt (digitsToNat ip)) r1

def pjNum (cs : List Char) : Option (Rat × List Char) :=
  match cs with
  | '-' :: rest => (pjNumCore rest).map (fun p => (-p.1, p.2))
  | _ => pjNumCore cs

mutual

/-- Recursive-descent JSON value parser (fuelled). -/
def pjVal : Nat → List Char → Option (JSValue × List Char)
  | 0, _ => none
  | fuel + 1, cs =>
    match skipWs cs with
    | 'n' :: 'u' :: 'l' :: 'l' :: rest => some (.vNull, rest)
    | 't' :: 'r' :: 'u' :: 'e' :: rest => some (.vBool true, rest)
    | 'f' :: 'a' :: 'l' :: 's' :: 'e' :: rest => some (.vBool false, rest)
    | '"' :: rest => (pjStrAux rest).map (fun p => (.vStr (String.mk p.1), p.2))
    | '[' :: rest =>
      match skipWs rest with
      | ']' :: rest2 => some (.vArr [], rest2)
      | _ => (pjElems fuel rest).map (fun p => (.vArr p.1, p.2))
    | '{' :: rest =>
      match skipWs rest with
      | '}' :: rest2 => some (.vObj [], rest2)
      | _ => (pjMembers fuel rest).map (fun p => (.vObj (objFromEntries p.1), p.2))
    | rest => (pjNum rest).map (fun p => (.vNum p.1, p.2))

/-- One-or-more comma-separated array elements, then `]`. -/
def pjElems : Nat → List Char → Option (List JSValue × List Char)
  | 0, _ => none
  | fuel + 1, cs =>
    match pjVal fuel cs with
    | none => none
    | some (v, r) =>
      match skipWs r with
      | ',' :: r2 => (pjElems fuel r2).map (fun p => (v :: p.1, p.2))
      | ']' :: r2 => some ([v], r2)
      | _ => none

/-- One-or-more comma-separated object members, then `}`. -/
def pjMembers : Nat → List Char → Option (List (String × JSValue) × List Char)
  | 0, _ => none
  | fuel + 1, cs =>
    match skipWs cs with
    | '"' :: rest =>
      match pjStrAux rest with
      | none => none
      | some (key, r) =>
        match skipWs r with
        | ':' :: r2 =>
          match pjVal fuel r2 with
          | none => none
          | some (v, r3) =>
            match skipWs r3 with
            | ',' :: r4 => (pjMembers fuel r4).map (fun p => ((String.mk key, v) :: p.1, p.2))
            | '}' :: r4 => some ([(String.mk key, v)], r4)
            | _ => none
        | _ => none
    | _ => none

end

/-- Model of `JSON.parse`: `none` is a thrown `SyntaxError`. -/
def jsonParse (s : String) : Option JSValue :=
  match pjVal (2 * s.length + 4) s.toList with
  | some (v, rest) => if (skipWs rest).isEmpty then some v else none
  | none => none

/-! ### Canonical serialization and signatures (src/sidebar.js 847-872) -/

/-- Lexicographic order on code units, as JavaScript's default string sort
comparator. -/
def charListLt : List Char → List Char → Bool
  | [], [] => false
  | [], _ :: _ => true
  | _ :: _, [] => false
  | a :: as, b :: bs => a.toNat < b.toNat || (a.toNat == b.toNat && charListLt as bs)

def strLtB (a b : String) : Bool := charListLt a.toList b.toList

/-- Stable insertion sort of key/value pairs by key, ascending; ties keep
their original relative order, matching JavaScript's stable `sort` on the
key array. -/
def insertByKey {α : Type} (p : String × α) : List (String × α) → List (String × α)
  | [] => [p]
  | q :: rest => if strLtB p.1 q.1 then p :: q :: rest else q :: insertByKey p rest

def sortByKey {α : Type} : List (String × α) → List (String × α)
  | [] => []
  | p :: rest => insertByKey p (sortByKey rest)

/-- `stableStringify` (fuelled): canonical serialization with sorted object
keys; `null`/`undefined` render as `null`, strings as their JSON quoting,
numbers and booleans as their `String(...)` text.  Rendering each value and
then sorting the rendered pairs by key commutes with the source's
sort-keys-then-render order.  The `seen`-set circularity marker is
unreachable here: inductive values cannot be cyclic. -/
def stableStringifyF : Nat → JSValue → String
  | _, .vUndef => "null"
  | _, .vNull => "null"
  | _, .vStr s => quoteJson s
  | _, .vNum q => ratToString q
  | _, .vBool b => cond b "true" "false"
  | 0, _ => ""
  | fuel + 1, .vArr items =>
    "[" ++ String.intercalate "," (items.map (stableStringifyF fuel)) ++ "]"
  | fuel + 1, .vObj fields =>
    let rendered := fields.map (fun kv => (kv.1, stableStringifyF fuel kv.2))
    "\x7b" ++
      String.intercalate "," ((sortByKey rendered).map (fun kv => quoteJson kv.1 ++ ":" ++ kv.2))
      ++ "\x7d"

/-- `buildToolCallSignature` (src/sidebar.js 870-872).  The fuel argument
is an embedding artifact: any fuel exceeding the nesting depth of `args`
yields the signature the source computes. -/
def buildToolCallSignature (fuel : Nat) (toolName : String) (args : JSValue) : String :=
  toolName ++ "::" ++ stableStringifyF fuel args

/-- `JSON.stringify` (fuelled): insertion-order keys, `undefined` members
dropped from objects, `undefined` array elements rendered as `null`; a
top-level `undefined` renders as the text "undefined", which is what the
template literals of the modelled call sites display. -/
def jsonStringifyF : Nat → JSValue → String
  | _, .vUndef => "undefined"
  | _, .vNull => "null"
  | _, .vStr s => quoteJson s
  | _, .vNum q => ratToString q
  | _, .vBool b => cond b "true" "false"
  | 0, _ => ""
  | fuel + 1, .vArr items =>
    "[" ++
      String.intercalate ","
        (items.map (fun v =>
          match v with
          | .vUndef => "null"
          | w => jsonStringifyF fuel w)) ++ "]"
  | fuel + 1, .vObj fields =>
    "\x7b" ++
      String.intercalate ","
        (fields.filterMap (fun kv =>
          match kv.2 with
          | .vUndef => none
          | w => some (quoteJson kv.1 ++ ":" ++ jsonStringifyF fuel w))) ++ "\x7d"

/-- Key-order canonical form: recursively sort every object's fields by
key.  Two values are "deep-equal after key-order normalization" exactly
when their canonical forms coincide. -/
def canonF : Nat → JSValue → JSValue
  | _, .vUndef => .vUndef
  | _, .vNull => .vNull
  | _, .vBool b => .vBool b
  | _, .vNum q => .vNum q
  | _, .vStr s => .vStr s
  | 0, v => v
  | fuel + 1, .vArr items => .vArr (items.map (canonF fuel))
  | fuel + 1, .vObj fields => .vObj (sortByKey (fields.map (fun kv => (kv.1, canonF fuel kv.2))))

/-- Deep equality up to recursive key reordering: the canonical forms agree
at every sufficient fuel. -/
def DeepEqKO (a b : JSValue) : Prop :=
  ∀ fuel, sizeOf a ≤ fuel → sizeOf b ≤ fuel → canonF fuel a = canonF fuel b

/-! ### A JavaScript `RegExp` fragment

`normalizeInputForSchema` compiles `schema.pattern` with `new RegExp` and
tests the candidate, ignoring patterns that fail to compile.  The model
implements the fragment of the regex language the schemas of this system
use (anchors, literals, `.`, `\d`-style classes, bracket classes with
ranges, and the `* + ? {n} {n,} {n,m}` quantifiers).  A pattern outside
this fragment fails to parse and is treated exactly like an invalid
pattern, i.e. always passes — the one modelling approximation in this
component. -/

inductive ClsItem where
  | single (c : Char)
  | range (a b : Char)
  | dig | wrd | spc | ndig | nwrd | nspc

inductive RAtom where
  | lit (c : Char)
  | dot
  | dig | wrd | spc | ndig | nwrd | nspc
  | cls (neg : Bool) (items : List ClsItem)

structure RegexAst where
  ancStart : Bool
  ancEnd : Bool
  pieces : List (RAtom × Nat × Option Nat)

def jsSpaceChar (c : Char) : Bool :=
  c = ' ' || c = '\t' || c = '\n' || c = '\r' || c = '\x0b' || c = '\x0c'

def wordChar (c : Char) : Bool := c.isAlphanum || c = '_'

def parseEscAtom (c : Char) : Option RAtom :=
  if c = 'd' then some .dig
  else if c = 'D' then some .ndig
  else if c = 'w' then some .wrd
  else if c = 'W' then some .nwrd
  else if c = 's' then some .spc
  else if c = 'S' then some .nspc
  else if c = 'n' then some (.lit '\n')
  else if c = 't' then some (.lit '\t')
  else if c = 'r' then some (.lit '\r')
  else if c.isAlphanum then none
  else some (.lit c)

def parseClsEsc (c : Char) : Option ClsItem :=
  if c = 'd' then some .dig
  else if c = 'D' then some .ndig
  else if c = 'w' then some .wrd
  else if c = 'W' then some .nwrd
  else if c = 's' then some .spc
  else if c = 'S' then some .nspc
  else if c = 'n' then some (.single '\n')
  else if c = 't' then some (.single '\t')
  else if c = 'r' then some (.single '\r')
  else if c.isAlphanum then none
  else some (.single c)

def parseClsItems : Nat → List Char → Option (List ClsItem × List Char)
  | 0, _ => none
  | fuel + 1, cs =>
    match cs with
    | [] => none
    | ']' :: rest => some ([], rest)
    | '\\' :: e :: rest =>
      match parseClsEsc e with
      | some it => (parseClsItems fuel rest).map (fun p => (it :: p.1, p.2))
      | none => none
    | a :: '-' :: b :: rest =>
      if b = ']' then some ([.single a, .single '-'], rest)
      else (parseClsItems fuel rest).map (fun p => (ClsItem.range a b :: p.1, p.2))
    | c :: rest => (parseClsItems fuel rest).map (fun p => (ClsItem.single c :: p.1, p.2))

/-- Parse an optional quantifier; an ill-formed `{...}` is left unconsumed
(JavaScript then treats the brace as a literal). -/
def parseQuant (cs : List Char) : Nat × Option Nat × List Char :=
  match cs with
  | '*' :: rest => (0, none, rest)
  | '+' :: rest => (1, none, rest)
  | '?' :: rest => (0, some 1, rest)
  | '{' :: rest =>
    let lo := rest.takeWhile Char.isDigit
    let r1 := rest.dropWhile Char.isDigit
    if lo.isEmpty then (1, some 1, cs)
    else
      match r1 with
      | '}' :: r2 => (digitsToNat lo, some (digitsToNat lo), r2)
      | ',' :: '}' :: r2 => (digitsToNat lo, none, r2)
      | ',' :: r2 =>
        let hi := r2.takeWhile Char.isDigit
        let r3 := r2.dropWhile Char.isDigit
        match r3 with
        | '}' :: r4 =>
          if hi.isEmpty then (1, some 1, cs) else (digitsToNat lo, some (digitsToNat hi), r4)
        | _ => (1, some 1, cs)
      | _ => (1, some 1, cs)
  | _ => (1, some 1, cs)

def parsePieces : Nat → List Char → Option (List (RAtom × Nat × Option Nat) × Bool)
  | 0, _ => none
  | fuel + 1, cs =>
    match cs with
    | [] => some ([], false)
    | ['$'] => some ([], true)
    | c :: rest =>
      let atomRes : Option (RAtom × List Char) :=
        if c = '\\' then
          match rest with
          | [] => none
          | e :: rest2 => (parseEscAtom e).map (fun a => (a, rest2))
        else if c = '[' then
          match rest with
          | '^' :: r2 => (parseClsItems fuel r2).map (fun p => (RAtom.cls true p.1, p.2))
          | _ => (parseClsItems fuel rest).map (fun p => (RAtom.cls false p.1, p.2))
        else if c = '.' then some (.dot, rest)
        else if c = '(' || c = ')' || c = '|' || c = '*' || c = '+' || c = '?' || c = '^'
             || c = '$' then none
        else some (.lit c, rest)
      match atomRes with
      | none => none
      | some (a, rest2) =>
        let q := parseQuant rest2
        (parsePieces fuel q.2.2).map (fun p => ((a, q.1, q.2.1) :: p.1, p.2))

/-- Compile a pattern string; `none` plays both `new RegExp` rejection and
the unsupported remainder of the regex language. -/
def parseRegex (pat : String) : Option RegexAst :=
  let cs := pat.toList
  let body : Bool × List Char :=
    match cs with
    | '^' :: r => (true, r)
    | _ => (false, cs)
  (parsePieces (body.2.length + 1) body.2).map (fun p => ⟨body.1, p.2, p.1⟩)

def clsItemMatch (c : Char) : ClsItem → Bool
  | .single c' => c = c'
  | .range a b => a.toNat ≤ c.toNat && c.toNat ≤ b.toNat
  | .dig => c.isDigit
  | .ndig => !c.isDigit
  | .wrd => wordChar c
  | .nwrd => !wordChar c
  | .spc => jsSpaceChar c
  | .nspc => !jsSpaceChar c

def atomMatch (a : RAtom) (c : Char) : Bool :=
  match a with
  | .lit l => c = l
  | .dot => c ≠ '\n' && c ≠ '\r'
  | .dig => c.isDigit
  | .ndig => !c.isDigit
  | .wrd => wordChar c
  | .nwrd => !wordChar c
  | .spc => jsSpaceChar c
  | .nspc => !jsSpaceChar c
  | .cls neg items => neg ^^ items.any (clsItemMatch c)

/-- Backtracking matcher for a quantified-atom sequence at the current
position. -/
def matchSeq (ancEnd : Bool) : Nat → List (RAtom × Nat × Option Nat) → List Char → Bool
  | 0, _, _ => false
  | _ + 1, [], cs => !ancEnd || cs.isEmpty
  | fuel + 1, (a, lo, hi) :: rest, cs =>
    if lo > 0 then
      match cs with
      | [] => false
      | c :: cs2 =>
        atomMatch a c && matchSeq ancEnd fuel ((a, lo - 1, hi.map (· - 1)) :: rest) cs2
    else
      matchSeq ancEnd fuel rest cs ||
        (match hi with
         | some 0 => false
         | _ =>
           match cs with
           | [] => false
           | c :: cs2 =>
             atomMatch a c && matchSeq ancEnd fuel ((a, 0, hi.map (· - 1)) :: rest) cs2)

def searchAll (ancEnd : Bool) (fuel : Nat) (pieces : List (RAtom × Nat × Option Nat)) :
    List Char → Bool
  | [] => matchSeq ancEnd fuel pieces []
  | c :: rest => matchSeq ancEnd fuel pieces (c :: rest) || searchAll ancEnd fuel pieces rest

/-- `regex.test(s)`. -/
def rtest (r : RegexAst) (s : String) : Bool :=
  let cs := s.toList
  let fuel := (cs.length + 1) * (r.pieces.length + 2) + 1
  if r.ancStart then matchSeq r.ancEnd fuel r.pieces cs
  else searchAll r.ancEnd fuel r.pieces cs

/-! ### Dates -/

/-- The ambient clock, which `generateTemplateFromSchema` consults for
`date`/`date-time` formats: the current local-midnight day number (days
since the Unix epoch) and the current instant's ISO rendering. -/
structure JSEnv where
  nowDays : Int
  nowInstant : String

/-- Civil-from-days conversion (proleptic Gregorian), yielding
(year, month, day). -/
def civilFromDays (z0 : Int) : Int × Nat × Nat :=
  let z := z0 + 719468
  let era : Int := Int.fdiv z 146097
  let doe : Nat := (z - era * 146097).toNat
  let yoe : Nat := (doe - doe / 1460 + doe / 36524 - doe / 146096) / 365
  let y : Int := (yoe : Int) + era * 400
  let doy : Nat := doe - (365 * yoe + yoe / 4 - yoe / 100)
  let mp : Nat := (5 * doy + 2) / 153
  let d : Nat := doy - (153 * mp + 2) / 5 + 1
  let m : Nat := if mp < 10 then mp + 3 else mp - 9
  (if m ≤ 2 then y + 1 else y, m, d)

def pad2 (n : Nat) : String := if n < 10 then "0" ++ toString n else toString n

def pad4 (y : Int) : String :=
  if y < 0 then "-" ++ toString (-y).toNat else padZerosLeft 4 (toString y.toNat)

/-- `getFutureDateISO` (src/sidebar.js 536-541): today at local midnight
advanced by `daysAhead`, rendered `YYYY-MM-DD`. -/
def getFutureDateISO (env : JSEnv) (daysAhead : Int) : String :=
  let c := civilFromDays (env.nowDays + daysAhead)
  pad4 c.1 ++ "-" ++ pad2 c.2.1 ++ "-" ++ pad2 c.2.2

/-- The literal `/^\d{4}-\d{2}-\d{2}$/` test. -/
def dateShape (s : String) : Bool :=
  match s.toList with
  | [a, b, c, d, e, f, g, h, i, j] =>
    a.isDigit && b.isDigit && c.isDigit && d.isDigit && e = '-' &&
      f.isDigit && g.isDigit && h = '-' && i.isDigit && j.isDigit
  | _ => false

/-! ### Schema Engine (src/sidebar.js 431-694)

A schema at runtime is itself a JavaScript value (the result of
`parseSchema`), so the engine's functions read schema facets through
property lookups on a `JSValue`, exactly as the source reads
`schema.const`, `schema.enum`, and so on. -/

/-- `schema[k]` (objects only; everything else — including the arrays that
slip through the source's `typeof === 'object'` guard — yields
`undefined` for the non-index keys the engine reads). -/
def schGet (schema : JSValue) : String → JSValue
  | k =>
    match schema with
    | .vObj fields => objGet fields k
    | _ => (.vUndef : JSValue)

/-- `Object.prototype.hasOwnProperty.call(schema, k)`. -/
def schHas (schema : JSValue) (k : String) : Bool :=
  match schema with
  | .vObj fields => objHas fields k
  | _ => false

/-- `Array.isArray(schema[k]) ? that array : []` (empty also covers the
absent and the non-array cases, which the source treats identically). -/
def schList (schema : JSValue) (k : String) : List JSValue :=
  match schGet schema k with
  | .vArr items => items
  | _ => []

/-- `schema.type` when it is a string; any other shape falls through every
`switch` case exactly like the empty string does. -/
def schTypeName (schema : JSValue) : String :=
  match schGet schema "type" with
  | .vStr t => t
  | _ => ""

/-- `typeof schema[k] === 'number' ? some it : none`. -/
def schNum (schema : JSValue) (k : String) : Option Rat :=
  match schGet schema k with
  | .vNum q => some q
  | _ => none

/-- `typeof schema[k] === 'string' ? some it : none`. -/
def schStr (schema : JSValue) (k : String) : Option String :=
  match schGet schema k with
  | .vStr t => some t
  | _ => none

/-- `Object.entries(schema.properties || {})`. -/
def schProps (schema : JSValue) : List (String × JSValue) :=
  match schGet schema "properties" with
  | .vObj fields => fields
  | _ => []

/-- `new Set(Array.isArray(schema.required) ? schema.required : [])` —
non-string members can never equal a property key and are dropped. -/
def schRequired (schema : JSValue) : List String :=
  (schList schema "required").filterMap fun v =>
    match v with
    | .vStr t => some t
    | _ => none

/-- `v === vStr t` for a statically known tag `t`. -/
def isStrVal (v : JSValue) (t : String) : Bool :=
  match v with
  | .vStr u => u == t
  | _ => false

/-- Is the schema a truthy `typeof === 'object'` value (the guard at the
top of both engine functions)? -/
def schemaUsable : JSValue → Bool
  | .vObj _ => true
  | .vArr _ => true
  | _ => false

/-- `String(path[path.length - 1] || '').toLowerCase()`. -/
def lastFieldName (path : List String) : String :=
  String.mk (((path.getLast?).getD "").toList.map Char.toLower)

/-- `generateTemplateFromSchema` (src/sidebar.js 443-534), fuelled; any
fuel exceeding the schema's nesting depth realizes the source's
behaviour.  (The source performs no cycle detection here and the spec
accepts non-termination on self-referential schemas; inductive schema
values are necessarily finite.) -/
def generateTemplateFromSchema : Nat → JSEnv → JSValue → List String → JSValue
  | 0, _, _, _ => .vObj []
  | fuel + 1, env, schema, path =>
    if !(schema.truthy && schemaUsable schema) then .vObj []
    else if schHas schema "const" then schGet schema "const"
    else if schHas schema "default" then schGet schema "default"
    else
      match schList schema "examples" with
      | e :: _ => e
      | [] =>
      match schList schema "enum" with
      | e :: _ => e
      | [] =>
      match schList schema "oneOf" with
      | b :: _ => generateTemplateFromSchema fuel env b path
      | [] =>
      match schList schema "anyOf" with
      | b :: _ => generateTemplateFromSchema fuel env b path
      | [] =>
      let ty := schTypeName schema
      if ty == "object" then
        .vObj ((schProps schema).foldl
          (fun out kv =>
            objSet out kv.1 (generateTemplateFromSchema fuel env kv.2 (path ++ [kv.1])))
          [])
      else if ty == "array" then
        if (schGet schema "items").truthy then
          .vArr [generateTemplateFromSchema fuel env (schGet schema "items") (path ++ ["0"])]
        else .vArr []
      else if ty == "string" then
        let fieldName := lastFieldName path
        let fmt := schGet schema "format"
        if isStrVal fmt "date" then
          if strContains fieldName "inbound" || strContains fieldName "return" then
            .vStr (getFutureDateISO env 2)
          else .vStr (getFutureDateISO env 1)
        else if isStrVal fmt "date-time" then .vStr env.nowInstant
        else if isStrVal fmt "email" then .vStr "user@example.com"
        else if isStrVal fmt "uri" || isStrVal fmt "url" then .vStr "https://example.com"
        else
          match schList schema "enum" with
          | e :: _ => .vStr (jsToStringF fuel e)
          | [] =>
          let pat := (schStr schema "pattern").getD ""
          if pat == "^[A-Z]{3}$" then
            if strContains fieldName "dest" || strContains fieldName "arrival" then .vStr "LAX"
            else .vStr "SFO"
          else if strContains fieldName "origin" || strContains fieldName "departure" ||
              strContains fieldName "from" then .vStr "SFO"
          else if strContains fieldName "destination" || strContains fieldName "arrival" then
            .vStr "LAX"
          else
            match schNum schema "minLength" with
            | some q =>
              if ratLt (mkRat 0 1) q then
                let size := if ratLe q (mkRat 24 1) then q else mkRat 24 1
                .vStr (replicateChar size.floor.toNat 'a')
              else .vStr "sample"
            | none => .vStr "sample"
      else if ty == "number" || ty == "integer" then
        let fieldName := lastFieldName path
        match schNum schema "minimum" with
        | some m => .vNum m
        | none =>
          match schNum schema "exclusiveMinimum" with
          | some em =>
            .vNum (if ty == "integer" then jsCeil (ratAdd em (mkRat 1 1))
                   else ratAdd em (mkRat 1 10))
          | none =>
            if strContains fieldName "passenger" || strContains fieldName "count" ||
                strContains fieldName "quantity" then .vNum (mkRat 1 1)
            else .vNum (mkRat 1 1)
      else if ty == "boolean" then .vBool false
      else if ty == "null" then .vNull
      else .vObj []

/-- The pattern test inside `normalizeInputForSchema`: compile
`schema.pattern`, test the candidate, and treat a pattern that does not
compile as passing (the source's `catch`-and-ignore). -/
def patternPasses (pat : String) (s : String) : Bool :=
  match parseRegex pat with
  | some r => rtest r s
  | none => true

/-- The string a non-string template repair works with: the source's
template value is a string on every reachable path; on pathological
schemas (a `const`/`default`/`examples` escape hatch inside a
string-typed node) JavaScript would implicitly stringify it where the
model does so explicitly. -/
def templateString (fuel : Nat) (env : JSEnv) (schema : JSValue) (path : List String) : String :=
  match generateTemplateFromSchema fuel env schema path with
  | .vStr s => s
  | w => jsToStringF fuel w

/-- `normalizeInputForSchema` (src/sidebar.js 543-694), fuelled; any fuel
exceeding the schema's nesting depth realizes the source's behaviour. -/
def normalizeInputForSchema : Nat → JSEnv → JSValue → JSValue → List String → JSValue × Bool
  | 0, _, _, value, _ => (value, false)
  | fuel + 1, env, schema, value, path =>
    if !(schema.truthy && schemaUsable schema) then (value, false)
    else
      match schList schema "oneOf" with
      | b :: _ => normalizeInputForSchema fuel env b value path
      | [] =>
      match schList schema "anyOf" with
      | b :: _ => normalizeInputForSchema fuel env b value path
      | [] =>
      let enm := schList schema "enum"
      if !enm.isEmpty && enm.all (fun e => !jsEqF (fuel + 1) e value) then
        (enm.headD .vUndef, true)
      else if schHas schema "const" && !jsEqF (fuel + 1) value (schGet schema "const") then
        (schGet schema "const", true)
      else
        let ty := schTypeName schema
        if ty == "object" then
          let isObjSource := value.isPlainObj
          let source := value.fieldsOf
          let required := schRequired schema
          let step :=
            (schProps schema).foldl
              (fun (acc : List (String × JSValue) × Bool) kv =>
                if (objGet source kv.1).isUndef && !required.contains kv.1 then acc
                else
                  let r := normalizeInputForSchema fuel env kv.2 (objGet source kv.1)
                    (path ++ [kv.1])
                  (objSet acc.1 kv.1 r.1, acc.2 || r.2))
              ([], !isObjSource)
          let out := source.foldl
            (fun (acc : List (String × JSValue)) kv =>
              if objHas acc kv.1 then acc else acc ++ [kv])
            step.1
          (.vObj out, step.2)
        else if ty == "array" then
          let isA := value.isArr
          let source := value.elemsOf
          if !(schGet schema "items").truthy then (.vArr source, !isA)
          else
            let results := source.enum.map fun iv =>
              normalizeInputForSchema fuel env (schGet schema "items") iv.2
                (path ++ [toString iv.1])
            let normalizedItems := results.map Prod.fst
            let changed := results.foldl (fun b r => b || r.2) (!isA)
            if normalizedItems.isEmpty &&
                ((match schNum schema "minItems" with
                  | some q => ratLt (mkRat 0 1) q
                  | none => false) || value.isUndef) then
              (.vArr [generateTemplateFromSchema fuel env (schGet schema "items")
                (path ++ ["0"])], true)
            else (.vArr normalizedItems, changed)
        else if ty == "string" then
          let start : String × Bool :=
            match value with
            | .vStr s => (s, false)
            | _ => (templateString (fuel + 1) env schema path, true)
          let afterDate : String × Bool :=
            if isStrVal (schGet schema "format") "date" && !dateShape start.1 then
              (templateString (fuel + 1) env schema path, true)
            else start
          let afterPat : String × Bool :=
            match schStr schema "pattern" with
            | some p =>
              if !patternPasses p afterDate.1 then
                (templateString (fuel + 1) env schema path, true)
              else afterDate
            | none => afterDate
          let afterMin : String × Bool :=
            match schNum schema "minLength" with
            | some q =>
              if ratLt (mkRat afterPat.1.length 1) q then
                (jsPadEnd afterPat.1 q.floor.toNat 'a', true)
              else afterPat
            | none => afterPat
          let afterMax : String × Bool :=
            match schNum schema "maxLength" with
            | some q =>
              if ratLt q (mkRat afterMin.1.length 1) then
                (jsSliceTo afterMin.1 q.floor.toNat, true)
              else afterMin
            | none => afterMin
          (.vStr afterMax.1, afterMax.2)
        else if ty == "number" || ty == "integer" then
          let start : Rat × Bool :=
            match toNumberF (fuel + 1) value with
            | some q => (q, false)
            | none =>
              -- `Number(generateTemplateFromSchema(...))`; on every schema whose
              -- generator reaches its numeric branch this is finite.  (On the
              -- pathological remainder JavaScript would carry `NaN` through;
              -- `0` stands in for it, `changed` is `true` either way.)
              ((match toNumberF (fuel + 1)
                  (generateTemplateFromSchema (fuel + 1) env schema path) with
                | some q => q
                | none => mkRat 0 1), true)
          let afterRound : Rat × Bool :=
            if ty == "integer" then
              let r := jsRound start.1
              (r, start.2 || r != start.1)
            else start
          let afterMin : Rat × Bool :=
            match schNum schema "minimum" with
            | some m => if ratLt afterRound.1 m then (m, true) else afterRound
            | none => afterRound
          let afterEMin : Rat × Bool :=
            match schNum schema "exclusiveMinimum" with
            | some em =>
              if ratLe afterMin.1 em then
                ((if ty == "integer" then jsCeil (ratAdd em (mkRat 1 1))
                  else ratAdd em (mkRat 1 10)), true)
              else afterMin
            | none => afterMin
          let afterMax : Rat × Bool :=
            match schNum schema "maximum" with
            | some m => if ratLt m afterEMin.1 then (m, true) else afterEMin
            | none => afterEMin
          let afterEMax : Rat × Bool :=
            match schNum schema "exclusiveMaximum" with
            | some em =>
              if ratLe em afterMax.1 then
                ((if ty == "integer" then jsFloor (ratAdd em (mkRat (-1) 1))
                  else ratAdd em (mkRat (-1) 10)), true)
              else afterMax
            | none => afterMax
          (.vNum afterEMax.1, afterEMax.2)
        else if ty == "boolean" then
          match value with
          | .vBool b => (.vBool b, false)
          | _ => (.vBool false, true)
        else if ty == "null" then
          match value with
          | .vNull => (.vNull, false)
          | _ => (.vNull, true)
        else
          match value with
          | .vUndef => (generateTemplateFromSchema (fuel + 1) env schema path, true)
          | _ => (value, false)

/-- `parseSchema` (src/sidebar.js 431-441). -/
def schemaFallback : JSValue := .vObj [("type", .vStr "object"), ("properties", .vObj [])]

def parseSchema (schema : JSValue) : JSValue :=
  if !schema.truthy then schemaFallback
  else
    match schema with
    | .vStr s =>
      match jsonParse s with
      | some v => v
      | none => schemaFallback
    | _ => schema

/-! ### Agent Loop Controller (src/sidebar.js `runAIAgentLoop`, 874-1012)

The AI Provider Adapter and the Tool Execution Gateway are the loop's only
collaborators; each is modelled as a function additionally indexed by how
many times it has been invoked so far, which captures any deterministic
schedule of an effectful external party (scripted adapters, transiently
failing gateways).  The loop's observable behaviour — transcript, chat
lines, trace events, and the exact argument lists handed to the two
collaborators — is accumulated in a `LoopState`. -/

structure Message where
  role : String
  content : String
  deriving DecidableEq

structure ChatLine where
  role : String
  text : String
  deriving DecidableEq

/-- A requested function call: `call?.name || '(unknown_tool)'` is modelled
by an empty `rawName` standing for every falsy name. -/
structure FnCall where
  rawName : String
  args : JSValue

structure AIResponse where
  error : String
  text : String
  functionCalls : List FnCall

structure ToolDef where
  name : String
  inputSchema : JSValue

/-- Gateway response: a non-empty `error` models both
`execResponse.error` and a rejected `sendMessage` (the `catch` handles the
two identically, with this string as `error.message`). -/
structure ExecResp where
  error : String
  result : JSValue

inductive TraceEvent where
  | aiText (text : String)
  | toolSkippedDuplicate (tool : String) (args : JSValue)
  | toolArgsNormalized (tool : String) (args : JSValue)
  | toolResult (tool : String) (args : JSValue) (result : JSValue)
  | toolError (tool : String) (args : JSValue) (error : String)
  | loopGuardTriggered (skipped : Nat)

structure LoopState where
  messages : List Message
  chat : List ChatLine
  trace : List TraceEvent
  adapterToolLists : List (List ToolDef)
  gatewayCalls : List (String × JSValue)

structure LoopOut where
  state : LoopState
  err : Option String

/-- The per-turn fold state: the evolving observable state, the
`executedToolCalls` ledger (`true` = success; prepend-shadowing models
`Map.set` overwrite), the `toolResultLines`, and the two counters. -/
structure TurnAcc where
  st : LoopState
  ledger : List (String × Bool)
  lines : List String
  executed : Nat
  skipped : Nat

/-- `typeof result === 'object' ? JSON.stringify(result) : String(result)`
(`null` counts as `object` in JavaScript). -/
def renderResult (sfuel : Nat) (result : JSValue) : String :=
  match result with
  | .vObj _ => jsonStringifyF sfuel result
  | .vArr _ => jsonStringifyF sfuel result
  | .vNull => jsonStringifyF sfuel result
  | w => jsToStringF sfuel w

/-- Argument intake (src/sidebar.js 905-915): a string payload is JSON
parsed with malformed text absorbed to `{}`; any non-object result is then
coerced to `{}`. -/
def coerceArgs (raw : JSValue) : JSValue :=
  let parsed :=
    match raw with
    | .vStr s =>
      match jsonParse s with
      | some v => v
      | none => .vObj []
    | v => v
  match parsed with
  | .vObj fields => JSValue.vObj fields
  | _ => .vObj []

/-- Processing of one requested call inside a turn (src/sidebar.js
903-988). -/
def processCall (sfuel : Nat) (env : JSEnv) (tools : List ToolDef)
    (gateway : Nat → String → JSValue → ExecResp) (acc : TurnAcc) (call : FnCall) : TurnAcc :=
  let toolName := if call.rawName == "" then "(unknown_tool)" else call.rawName
  let args := coerceArgs call.args
  let callSignature := buildToolCallSignature sfuel toolName args
  match acc.ledger.lookup callSignature with
  | some true =>
    { acc with
      skipped := acc.skipped + 1,
      lines := acc.lines ++
        [toolName ++ "(" ++ jsonStringifyF sfuel args ++
          ") => SKIPPED: duplicate of a successful previous call"],
      st := { acc.st with
        trace := acc.st.trace ++ [.toolSkippedDuplicate toolName args] } }
  | _ =>
    let normStep : JSValue × List TraceEvent :=
      match tools.find? (fun t => t.name == toolName) with
      | some toolDef =>
        let schema := parseSchema toolDef.inputSchema
        let normalized := normalizeInputForSchema sfuel env schema args []
        if normalized.2 then (normalized.1, [.toolArgsNormalized toolName normalized.1])
        else (args, [])
      | none => (args, [])
    let args2 := normStep.1
    let st1 := { acc.st with
      trace := acc.st.trace ++ normStep.2,
      chat := acc.st.chat ++ [ChatLine.mk "system" ("Calling tool: " ++ toolName)] }
    let resp := gateway st1.gatewayCalls.length toolName args2
    let st2 := { st1 with gatewayCalls := st1.gatewayCalls ++ [(toolName, args2)] }
    if resp.error == "" then
      { acc with
        st := { st2 with trace := st2.trace ++ [TraceEvent.toolResult toolName args2 resp.result] },
        lines := acc.lines ++
          [toolName ++ "(" ++ jsonStringifyF sfuel args2 ++ ") => " ++
            renderResult sfuel resp.result],
        executed := acc.executed + 1,
        ledger := (callSignature, true) :: acc.ledger }
    else
      { acc with
        st := { st2 with trace := st2.trace ++ [TraceEvent.toolError toolName args2 resp.error] },
        lines := acc.lines ++
          [toolName ++ "(" ++ jsonStringifyF sfuel args2 ++ ") => ERROR: " ++ resp.error],
        ledger := (callSignature, false) :: acc.ledger }

def guardMessage : String :=
  "You are repeating identical tool calls that already succeeded. " ++
    "Do not call tools again for this request. Use prior results and provide the final answer."

def summaryTail : String :=
  "Continue the task. Do not repeat a tool call with identical arguments if it already succeeded."

def maxTurnsStopNotice : String := "Stopped after max AI turns to avoid loops."

/-- The turn loop (`for (let turn = 0; turn < maxTurns; ...)`), structural
on the remaining turn budget. -/
def runTurns (sfuel : Nat) (env : JSEnv)
    (adapter : Nat → List Message → List ToolDef → AIResponse)
    (gateway : Nat → String → JSValue → ExecResp) (tools : List ToolDef) :
    Nat → Nat → LoopState → Bool → List (String × Bool) → LoopOut
  | 0, _, st, _, _ =>
    ⟨{ st with chat := st.chat ++ [⟨"system", maxTurnsStopNotice⟩] }, none⟩
  | remaining + 1, turn, st0, toolsEnabled, ledger =>
    let offered := if toolsEnabled then tools else []
    let resp := adapter turn st0.messages offered
    let st1 := { st0 with adapterToolLists := st0.adapterToolLists ++ [offered] }
    if resp.error != "" then ⟨st1, some resp.error⟩
    else
      let text := jsTrim resp.text
      let st2 :=
        if text != "" then
          { st1 with
            messages := st1.messages ++ [⟨"assistant", text⟩],
            chat := st1.chat ++ [⟨"assistant", text⟩],
            trace := st1.trace ++ [.aiText text] }
        else st1
      if resp.functionCalls.isEmpty then ⟨st2, none⟩
      else
        let acc := resp.functionCalls.foldl (processCall sfuel env tools gateway)
          ⟨st2, ledger, [], 0, 0⟩
        if acc.executed == 0 && acc.skipped > 0 then
          let st3 := { acc.st with
            messages := acc.st.messages ++ [⟨"user", guardMessage⟩],
            chat := acc.st.chat ++
              [⟨"system",
                "Duplicate tool-call loop detected. Asking AI for final answer without more tool calls."⟩],
            trace := acc.st.trace ++ [.loopGuardTriggered acc.skipped] }
          runTurns sfuel env adapter gateway tools remaining (turn + 1) st3 false acc.ledger
        else
          let toolSummary := "Tool call results:\n" ++ String.intercalate "\n" acc.lines ++
            "\n\n" ++ summaryTail
          let st3 := { acc.st with
            messages := acc.st.messages ++ [⟨"user", toolSummary⟩],
            chat := acc.st.chat ++ [⟨"system", "Tool results sent back to AI."⟩] }
          runTurns sfuel env adapter gateway tools remaining (turn + 1) st3 toolsEnabled acc.ledger

def maxTurns : Nat := 5

/-- `runAIAgentLoop`: five-turn budget, fresh ledger, tools enabled. -/
def runAIAgentLoop (sfuel : Nat) (env : JSEnv)
    (adapter : Nat → List Message → List ToolDef → AIResponse)
    (gateway : Nat → String → JSValue → ExecResp) (tools : List ToolDef)
    (initMessages : List Message) : LoopOut :=
  runTurns sfuel env adapter gateway tools maxTurns 0 ⟨initMessages, [], [], [], []⟩ true []

/-- A fixed clock for concrete instances: local midnight of 2024-10-04
(day 20000 of the Unix epoch). -/
def sampleEnv : JSEnv := ⟨20000, "2024-10-04T17:00:00.000Z"⟩

/-- The schema class on which template generation is conformant.  It bars
exactly the interactions that break the claim on the full schema language:
value escape hatches that bypass type checking (`const`, `default`,
`examples`, `enum`), the features whose template can violate them
(`pattern`, `minLength` — the generator caps its padding at 24 —
`maxLength`, `format:"date"`, whose rendering leaves the `YYYY-MM-DD`
shape for out-of-range clock years), numeric upper bounds (the generator
only honours lower ones), a lower bound that is fractional for an
`integer` schema or doubled up (`minimum` with `exclusiveMinimum`), and
duplicate property keys (unconstructible in JavaScript).  `oneOf`/`anyOf`
recurse into the first branch, which is the only branch both engine
functions consult. -/
def tmplSafe : Nat → JSValue → Bool
  | 0, _ => false
  | fuel + 1, s =>
    !schHas s "const" && !schHas s "default" && (schList s "examples").isEmpty &&
    (schList s "enum").isEmpty &&
    (match schList s "oneOf" with
     | b :: _ => tmplSafe fuel b
     | [] =>
       match schList s "anyOf" with
       | b :: _ => tmplSafe fuel b
       | [] =>
         let ty := schTypeName s
         if ty == "object" then
           nodupKeys (schProps s) && (schProps s).all (fun kv => tmplSafe fuel kv.2)
         else if ty == "array" then
           !(schGet s "items").truthy || tmplSafe fuel (schGet s "items")
         else if ty == "string" then
           (schStr s "pattern").isNone && (schNum s "minLength").isNone &&
             (schNum s "maxLength").isNone && !isStrVal (schGet s "format") "date"
         else if ty == "number" || ty == "integer" then
           (schNum s "maximum").isNone && (schNum s "exclusiveMaximum").isNone &&
             ((schNum s "minimum").isNone || (schNum s "exclusiveMinimum").isNone) &&
             (match schNum s "minimum" with
              | some m => ty == "number" || jsRound m == m
              | none => true)
         else true)

/-! ## Theorems for the claims -/

/-- C5: duplicate suppression.  Two identical calls in sequence (same tool,
same object arguments, the first succeeding): the gateway is invoked
exactly once; the duplicate is traced as a skipped-duplicate event; the
model-facing summary message carries the first call's result line followed
by the "SKIPPED: duplicate of a successful previous call" line. -/
theorem dedup_skips_successful_duplicate (toolName : String) (hn : toolName ≠ "")
    (o : List (String × JSValue)) (rs : Nat → JSValue) :
    (runAIAgentLoop 50 sampleEnv
        (fun turn _ _ =>
          if turn == 0 then ⟨"", "", [⟨toolName, .vObj o⟩, ⟨toolName, .vObj o⟩]⟩
          else ⟨"", "done", []⟩)
        (fun n _ _ => ⟨"", rs n⟩) [] []) =
      { state :=
          { messages := [⟨"user",
              "Tool call results:\n" ++
                (toolName ++ "(" ++ jsonStringifyF 50 (.vObj o) ++ ") => " ++
                  renderResult 50 (rs 0)) ++ "\n" ++
                (toolName ++ "(" ++ jsonStringifyF 50 (.vObj o) ++
                  ") => SKIPPED: duplicate of a successful previous call") ++
                "\n\n" ++ summaryTail⟩,
              ⟨"assistant", "done"⟩],
            chat := [⟨"system", "Calling tool: " ++ toolName⟩,
                     ⟨"system", "Tool results sent back to AI."⟩,
                     ⟨"assistant", "done"⟩],
            trace := [.toolResult toolName (.vObj o) (rs 0),
                      .toolSkippedDuplicate toolName (.vObj o),
                      .aiText "done"],
            adapterToolLists := [[], []],
            gatewayCalls := [(toolName, .vObj o)] },
        err := none } := by
  have hb : (toolName == "") = false := by
    simp [hn]
  simp [runAIAgentLoop, runTurns, processCall, coerceArgs, maxTurns, hb, jsTrim,
    List.lookup, String.intercalate, String.intercalate.go, String.append_assoc]

/-- C5 witness: the duplicate-suppression run at tool `t1`, arguments
`{a:1}`, gateway result `null`. -/
theorem dedup_skips_successful_duplicate_witness :
    (runAIAgentLoop 50 sampleEnv
        (fun turn _ _ =>
          if turn == 0 then
            ⟨"", "", [⟨"t1", .vObj [("a", .vNum (mkRat 1 1))]⟩,
                      ⟨"t1", .vObj [("a", .vNum (mkRat 1 1))]⟩]⟩
          else ⟨"", "done", []⟩)
        (fun n _ _ => ⟨"", (fun _ => JSValue.vNull) n⟩) [] []) =
      { state :=
          { messages := [⟨"user",
              "Tool call results:\nt1(\x7b\"a\":1\x7d) => null\n" ++
                "t1(\x7b\"a\":1\x7d) => SKIPPED: duplicate of a successful previous call\n\n" ++
                summaryTail⟩,
              ⟨"assistant", "done"⟩],
            chat := [⟨"system", "Calling tool: t1"⟩,
                     ⟨"system", "Tool results sent back to AI."⟩,
                     ⟨"assistant", "done"⟩],
            trace := [.toolResult "t1" (.vObj [("a", .vNum (mkRat 1 1))]) .vNull,
                      .toolSkippedDuplicate "t1" (.vObj [("a", .vNum (mkRat 1 1))]),
                      .aiText "done"],
            adapterToolLists := [[], []],
            gatewayCalls := [("t1", .vObj [("a", .vNum (mkRat 1 1))])] },
        err := none } :=
  dedup_skips_successful_duplicate "t1" (by decide) [("a", .vNum (mkRat 1 1))]
    (fun _ => .vNull)

/-- C6: retry after failure.  A call whose first execution errors is
recorded with status error; an identical-argument request on the next turn
is not treated as a duplicate — the gateway is invoked a second time (and
here succeeds). -/
theorem errored_call_is_retried (toolName : String) (hn : toolName ≠ "")
    (o : List (String × JSValue)) (emsg : String) (he : emsg ≠ "") (r : JSValue) :
    (runAIAgentLoop 50 sampleEnv
        (fun turn _ _ =>
          if turn ≤ 1 then ⟨"", "", [⟨toolName, .vObj o⟩]⟩
          else ⟨"", "done", []⟩)
        (fun n _ _ => if n == 0 then ⟨emsg, .vUndef⟩ else ⟨"", r⟩) [] []) =
      { state :=
          { messages := [⟨"user",
              "Tool call results:\n" ++
                (toolName ++ "(" ++ jsonStringifyF 50 (.vObj o) ++ ") => ERROR: " ++ emsg) ++
                "\n\n" ++ summaryTail⟩,
              ⟨"user",
              "Tool call results:\n" ++
                (toolName ++ "(" ++ jsonStringifyF 50 (.vObj o) ++ ") => " ++
                  renderResult 50 r) ++ "\n\n" ++ summaryTail⟩,
              ⟨"assistant", "done"⟩],
            chat := [⟨"system", "Calling tool: " ++ toolName⟩,
                     ⟨"system", "Tool results sent back to AI."⟩,
                     ⟨"system", "Calling tool: " ++ toolName⟩,
                     ⟨"system", "Tool results sent back to AI."⟩,
                     ⟨"assistant", "done"⟩],
            trace := [.toolError toolName (.vObj o) emsg,
                      .toolResult toolName (.vObj o) r,
                      .aiText "done"],
            adapterToolLists := [[], [], []],
            gatewayCalls := [(toolName, .vObj o), (toolName, .vObj o)] },
        err := none } := by
  have hb : (toolName == "") = false := by simp [hn]
  have hbe : (emsg == "") = false := by simp [he]
  simp [runAIAgentLoop, runTurns, processCall, coerceArgs, maxTurns, hb, hbe, jsTrim,
    List.lookup, String.intercalate, String.intercalate.go, String.append_assoc]

/-- C6 witness: the retry run at tool `t1`, arguments `{a:1}`, first
gateway outcome `ERROR: boom`, second `"fine"`. -/
theorem errored_call_is_retried_witness :
    (runAIAgentLoop 50 sampleEnv
        (fun turn _ _ =>
          if turn ≤ 1 then ⟨"", "", [⟨"t1", .vObj [("a", .vNum (mkRat 1 1))]⟩]⟩
          else ⟨"", "done", []⟩)
        (fun n _ _ => if n == 0 then ⟨"boom", .vUndef⟩ else ⟨"", .vStr "fine"⟩) [] []) =
      { state :=
          { messages := [⟨"user",
              "Tool call results:\nt1(\x7b\"a\":1\x7d) => ERROR: boom\n\n" ++ summaryTail⟩,
              ⟨"user", "Tool call results:\nt1(\x7b\"a\":1\x7d) => fine\n\n" ++ summaryTail⟩,
              ⟨"assistant", "done"⟩],
            chat := [⟨"system", "Calling tool: t1"⟩,
                     ⟨"system", "Tool results sent back to AI."⟩,
                     ⟨"system", "Calling tool: t1"⟩,
                     ⟨"system", "Tool results sent back to AI."⟩,
                     ⟨"assistant", "done"⟩],
            trace := [.toolError "t1" (.vObj [("a", .vNum (mkRat 1 1))]) "boom",
                      .toolResult "t1" (.vObj [("a", .vNum (mkRat 1 1))]) (.vStr "fine"),
                      .aiText "done"],
            adapterToolLists := [[], [], []],
            gatewayCalls := [("t1", .vObj [("a", .vNum (mkRat 1 1))]),
                             ("t1", .vObj [("a", .vNum (mkRat 1 1))])] },
        err := none } :=
  errored_call_is_retried "t1" (by decide) [("a", .vNum (mkRat 1 1))] "boom" (by decide)
    (.vStr "fine")

/-- Per-call processing never touches the list of adapter invocations. -/
theorem processCall_adapterToolLists (sfuel : Nat) (env : JSEnv) (tools : List ToolDef)
    (gateway : Nat → String → JSValue → ExecResp) (acc : TurnAcc) (call : FnCall) :
    (processCall sfuel env tools gateway acc call).st.adapterToolLists =
      acc.st.adapterToolLists := by
  unfold processCall
  dsimp only
  repeat' split
  all_goals rfl

/-- Folding a turn's calls never touches the list of adapter invocations. -/
theorem foldl_processCall_adapterToolLists (sfuel : Nat) (env : JSEnv) (tools : List ToolDef)
    (gateway : Nat → String → JSValue → ExecResp) (calls : List FnCall) :
    ∀ acc : TurnAcc,
      (calls.foldl (processCall sfuel env tools gateway) acc).st.adapterToolLists =
        acc.st.adapterToolLists := by
  induction calls with
  | nil => intro acc; rfl
  | cons c rest ih =>
    intro acc
    rw [List.foldl_cons, ih, processCall_adapterToolLists]

/-- Each turn consults the adapter exactly once, so a run of `remaining`
turns grows the adapter-invocation list by at most `remaining`. -/
theorem runTurns_adapterToolLists_le (sfuel : Nat) (env : JSEnv)
    (adapter : Nat → List Message → List ToolDef → AIResponse)
    (gateway : Nat → String → JSValue → ExecResp) (tools : List ToolDef) :
    ∀ (remaining turn : Nat) (st : LoopState) (te : Bool) (ledger : List (String × Bool)),
      (runTurns sfuel env adapter gateway tools remaining turn st te
        ledger).state.adapterToolLists.length ≤ st.adapterToolLists.length + remaining := by
  intro remaining
  induction remaining with
  | zero =>
    intro turn st te ledger
    simp [runTurns]
  | succ r ih =>
    intro turn st te ledger
    rw [runTurns]
    cases te <;> dsimp only <;> try simp only [reduceIte]
    all_goals repeat' split
    all_goals
      solve
      | (refine le_trans (ih _ _ _ _) ?_
         dsimp only
         rw [foldl_processCall_adapterToolLists]
         dsimp only
         repeat' split
         all_goals simp <;> try omega)
      | (simp <;> try omega)
      | (simp_all <;> try omega)
      | omega

/-- C7: bounded turns.  Every invocation consults the adapter (i.e. runs)
at most `maxTurns = 5` times; and an adapter that requests a fresh,
never-duplicate call on every turn runs exactly 5 turns, the gateway firing
each time, after which the loop ends with the "stopped after max turns"
notice rather than an error. -/
theorem loop_bounded_turns :
    (∀ (sfuel : Nat) (env : JSEnv)
      (adapter : Nat → List Message → List ToolDef → AIResponse)
      (gateway : Nat → String → JSValue → ExecResp) (tools : List ToolDef)
      (init : List Message),
      (runAIAgentLoop sfuel env adapter gateway tools
        init).state.adapterToolLists.length ≤ maxTurns) ∧
    (∀ rs : Nat → JSValue,
      (runAIAgentLoop 50 sampleEnv
          (fun turn _ _ => ⟨"", "", [⟨"t", .vObj [("turn", .vNum (mkRat turn 1))]⟩]⟩)
          (fun n _ _ => ⟨"", rs n⟩) [] []).err = none ∧
      (runAIAgentLoop 50 sampleEnv
          (fun turn _ _ => ⟨"", "", [⟨"t", .vObj [("turn", .vNum (mkRat turn 1))]⟩]⟩)
          (fun n _ _ => ⟨"", rs n⟩) [] []).state.adapterToolLists.length = maxTurns ∧
      (runAIAgentLoop 50 sampleEnv
          (fun turn _ _ => ⟨"", "", [⟨"t", .vObj [("turn", .vNum (mkRat turn 1))]⟩]⟩)
          (fun n _ _ => ⟨"", rs n⟩) [] []).state.gatewayCalls.length = maxTurns ∧
      (runAIAgentLoop 50 sampleEnv
          (fun turn _ _ => ⟨"", "", [⟨"t", .vObj [("turn", .vNum (mkRat turn 1))]⟩]⟩)
          (fun n _ _ => ⟨"", rs n⟩) [] []).state.chat.getLast? =
        some ⟨"system", maxTurnsStopNotice⟩) := by
  constructor
  · intro sfuel env adapter gateway tools init
    exact runTurns_adapterToolLists_le sfuel env adapter gateway tools maxTurns 0 _ true []
  · intro rs
    exact ⟨rfl, rfl, rfl, rfl⟩

/-- C9: the dedup signature is computed from the parsed/coerced raw
arguments before schema normalization, and the ledger records that
pre-normalization signature.  Tool `t2` takes an integer `n`; two requested
calls with raw arguments `{n:"5.7"}` and `{n:6}` both normalize to the
executed arguments `{n:6}`, yet neither is skipped — the gateway fires
twice with identical executed arguments.  A later request repeating the
raw `{n:"5.7"}` is then skipped as a duplicate (and traced with the
pre-normalization arguments), showing the ledger keyed the raw form. -/
theorem signature_uses_preNormalization_args :
    (runAIAgentLoop 50 sampleEnv
        (fun turn _ _ =>
          if turn == 0 then
            ⟨"", "", [⟨"t2", .vObj [("n", .vStr "5.7")]⟩, ⟨"t2", .vObj [("n", .vNum (mkRat 6 1))]⟩]⟩
          else if turn == 1 then ⟨"", "", [⟨"t2", .vObj [("n", .vStr "5.7")]⟩]⟩
          else ⟨"", "done", []⟩)
        (fun _ _ _ => ⟨"", .vNull⟩)
        [⟨"t2", .vObj [("type", .vStr "object"),
          ("properties", .vObj [("n", .vObj [("type", .vStr "integer")])])]⟩] []) =
      { state :=
          { messages := [⟨"user",
              "Tool call results:\nt2(\x7b\"n\":6\x7d) => null\nt2(\x7b\"n\":6\x7d) => null\n\n" ++ summaryTail⟩,
              ⟨"user", guardMessage⟩,
              ⟨"assistant", "done"⟩],
            chat := [⟨"system", "Calling tool: t2"⟩,
                     ⟨"system", "Calling tool: t2"⟩,
                     ⟨"system", "Tool results sent back to AI."⟩,
                     ⟨"system",
                      "Duplicate tool-call loop detected. Asking AI for final answer without more tool calls."⟩,
                     ⟨"assistant", "done"⟩],
            trace := [.toolArgsNormalized "t2" (.vObj [("n", .vNum (mkRat 6 1))]),
                      .toolResult "t2" (.vObj [("n", .vNum (mkRat 6 1))]) .vNull,
                      .toolResult "t2" (.vObj [("n", .vNum (mkRat 6 1))]) .vNull,
                      .toolSkippedDuplicate "t2" (.vObj [("n", .vStr "5.7")]),
                      .loopGuardTriggered 1,
                      .aiText "done"],
            adapterToolLists :=
              [[⟨"t2", .vObj [("type", .vStr "object"),
                  ("properties", .vObj [("n", .vObj [("type", .vStr "integer")])])]⟩],
               [⟨"t2", .vObj [("type", .vStr "object"),
                  ("properties", .vObj [("n", .vObj [("type", .vStr "integer")])])]⟩],
               []],
            gatewayCalls := [("t2", .vObj [("n", .vNum (mkRat 6 1))]),
                             ("t2", .vObj [("n", .vNum (mkRat 6 1))])] },
        err := none } :=
  rfl

/-! ### Structural size facts used to discharge fuel bounds -/

theorem jsvalue_sizeOf_pos (v : JSValue) : 0 < sizeOf v := by
  cases v <;> simp_arith

theorem jsCeil_is_ofInt (q : Rat) : jsCeil q = ratOfInt q.ceil := rfl

theorem objHas_of_mem {kv : String × JSValue} :
    ∀ {fields : List (String × JSValue)}, kv ∈ fields → objHas fields kv.1 = true := by
  intro fields h
  induction fields with
  | nil => cases h
  | cons hd rest ih =>
    obtain ⟨k', v'⟩ := hd
    rcases List.mem_cons.mp h with h1 | h2
    · subst h1
      simp [objHas]
    · simp [objHas, ih h2]

theorem objHas_false_of_not_mem {fields : List (String × JSValue)} {k : String}
    (h : objHas fields k = false) : ∀ v, (k, v) ∉ fields := by
  intro v hmem
  have := objHas_of_mem hmem
  simp at this
  rw [this] at h
  cases h

theorem generate_ne_undef (env : JSEnv) :
    ∀ (fuel : Nat) (schema : JSValue) (path : List String),
      tmplSafe fuel schema = true →
      (generateTemplateFromSchema fuel env schema path).isUndef = false := by
  intro fuel
  induction fuel with
  | zero => intro schema path h; simp [tmplSafe] at h
  | succ f ih =>
    intro schema path h
    simp only [tmplSafe, Bool.and_eq_true, Bool.not_eq_true'] at h
    obtain ⟨⟨⟨⟨hconst, hdefault⟩, hex⟩, hen⟩, hrest⟩ := h
    rw [generateTemplateFromSchema]
    by_cases hg : (schema.truthy && schemaUsable schema) = true
    · rw [List.isEmpty_iff] at hex hen
      simp only [hg, Bool.not_true, if_false, hconst, hdefault, hex, hen]
      split at hrest
      · next b tl heq =>
        simp only [Bool.false_eq_true, if_false]
        exact ih b path hrest
      · next heq =>
        split at hrest
        · next b tl heq2 =>
          simp only [Bool.false_eq_true, if_false]
          exact ih b path hrest
        · next heq2 =>
          simp only [Bool.false_eq_true, if_false]
          rcases hml : schNum schema "minLength" with _ | q <;>
            rcases hm : schNum schema "minimum" with _ | m <;>
              rcases hem : schNum schema "exclusiveMinimum" with _ | em <;>
                (simp only [apply_ite JSValue.isUndef]
                 simp [JSValue.isUndef])
    · rw [Bool.not_eq_true] at hg
      simp [hg, JSValue.isUndef]



end WebMCP
